import Mathlib

/-!
Verification development for the registry-agent repository: a shallow
embedding of the context-scoped Docker client registry
(`internal/service/docker.go`, multi-context version) and of the
interactive session bridge (`ContainerHandler.ExecContainer`), together
with theorems settling the specification claims.

Modelling conventions:
* Go maps keyed by strings are association lists (`List (String × _)`);
  `assocSet` is map assignment, `assocDel` is `delete`.
* The on-disk context store (`.docker-contexts/contexts.json`) is modelled
  at its documented shape `{"contexts": {name: {"type","host"}},
  "current-context": str}`; missing string fields read as `""` exactly as
  Go's `v, _ := m["host"].(string)` does.  File-system I/O failures of
  `readConfig`/`saveConfig` are not modelled (the store is always
  readable), matching the spec's view of the store as pure data access.
* The external Docker SDK call `client.NewClientWithOpts` is modelled by
  an environment oracle `ok : String → Bool` saying whether creating a
  client for a given host succeeds; each successful creation opens a
  fresh backend connection, so clients carry a serial number drawn from
  `nextId` and the number of connections opened is the increase of
  `nextId`.
-/

/-- Map assignment `m[k] = v` on an association list: replaces the first
binding of `k` or appends a new one. -/
def assocSet {α : Type} (l : List (String × α)) (k : String) (v : α) :
    List (String × α) :=
  match l with
  | [] => [(k, v)]
  | (k₁, v₁) :: rest =>
    if k₁ = k then (k, v) :: rest else (k₁, v₁) :: assocSet rest k v

/-- Map deletion `delete(m, k)` on an association list. -/
def assocDel {α : Type} (l : List (String × α)) (k : String) :
    List (String × α) :=
  l.filter (fun p => !(p.1 == k))

/-- One stored context entry `{"type": string, "host": string}`. -/
structure ContextEntry where
  type : String
  host : String
deriving DecidableEq, Repr

/-- The context store document `{"contexts": …, "current-context": …}`. -/
structure Config where
  contexts : List (String × ContextEntry)
  currentContext : String
deriving DecidableEq, Repr

/-- A live Docker client handle: bound to one host address at creation
time; `id` is the serial number of the backend connection it owns, so
distinct creations yield distinct handles. -/
structure Client where
  host : String
  id : Nat
deriving DecidableEq, Repr

/-- Error taxonomy of the registry operations, mirroring the `fmt.Errorf`
messages of the source: `context %s not found`, `invalid host
configuration for context %s`, `failed to create docker client`,
`cannot delete current context: %s`. -/
inductive DockerErr
  | notFound (name : String)
  | invalidHost (name : String)
  | clientCreateFailed (host : String)
  | inUse (name : String)
deriving DecidableEq, Repr

/-- State of a `DockerService` together with its file-system store and
process environment: `clients` is the `s.clients` map, `store` the
contexts.json document, `envDockerHost` the `DOCKER_HOST` variable, and
`nextId` the serial of the next backend connection to be opened. -/
structure RegistryState where
  clients : List (String × Client)
  store : Config
  envDockerHost : String
  nextId : Nat
deriving DecidableEq, Repr

/-- `DockerService.getClient`: return the cached client for
`contextName` if present; otherwise read the store, fail with notFound
when the context is absent, with invalidHost when its host is empty,
open a new client for the host (oracle `ok`), cache and return it. -/
def getClient (ok : String → Bool) (s : RegistryState) (contextName : String) :
    Except DockerErr Client × RegistryState :=
  match List.lookup contextName s.clients with
  | some cli => (.ok cli, s)
  | none =>
    match List.lookup contextName s.store.contexts with
    | none => (.error (.notFound contextName), s)
    | some entry =>
      if entry.host = "" then (.error (.invalidHost contextName), s)
      else if ok entry.host then
        let cli : Client := ⟨entry.host, s.nextId⟩
        (.ok cli,
         { s with clients := assocSet s.clients contextName cli,
                  nextId := s.nextId + 1 })
      else (.error (.clientCreateFailed entry.host), s)

/-- `DockerService.DeleteContext`: fail with inUse when `name` is the
current context, with notFound when it is absent; otherwise remove it
from the store and save. -/
def deleteContext (s : RegistryState) (name : String) :
    Except DockerErr Unit × RegistryState :=
  if s.store.currentContext = name then (.error (.inUse name), s)
  else
    match List.lookup name s.store.contexts with
    | none => (.error (.notFound name), s)
    | some _ =>
      (.ok (),
       { s with store := { s.store with
                            contexts := assocDel s.store.contexts name } })

/-- Observable events of one `UpdateContextConfig` run, in execution
order: store read, `os.Setenv("DOCKER_HOST", …)`, the
`client.NewClientWithOpts` call, the `s.clients[name] = cli`
assignment, and `saveConfig`. -/
inductive UpdEvent
  | readConfig
  | setEnv (host : String)
  | createClient (host : String)
  | cacheClient (name : String)
  | persistConfig
deriving DecidableEq, Repr

/-- `DockerService.UpdateContextConfig`: overwrite the entry for `name`;
when `name` is the current context, additionally set `DOCKER_HOST` to
the new host, open a fresh client from the environment and cache it
(returning the creation error before anything is persisted when that
fails); finally save the mutated document.  Returns the result, the new
state and the event log. -/
def updateContextConfig (ok : String → Bool) (s : RegistryState)
    (name : String) (cfg : ContextEntry) :
    Except DockerErr Unit × RegistryState × List UpdEvent :=
  match List.lookup name s.store.contexts with
  | none => (.error (.notFound name), s, [.readConfig])
  | some _ =>
    let store₁ : Config :=
      { s.store with contexts := assocSet s.store.contexts name cfg }
    if s.store.currentContext = name then
      let dockerHost := cfg.host
      if ok dockerHost then
        let cli : Client := ⟨dockerHost, s.nextId⟩
        (.ok (),
         { s with store := store₁,
                  clients := assocSet s.clients name cli,
                  envDockerHost := dockerHost,
                  nextId := s.nextId + 1 },
         [.readConfig, .setEnv dockerHost, .createClient dockerHost,
          .cacheClient name, .persistConfig])
      else
        (.error (.clientCreateFailed dockerHost),
         { s with envDockerHost := dockerHost },
         [.readConfig, .setEnv dockerHost, .createClient dockerHost])
    else
      (.ok (), { s with store := store₁ }, [.readConfig, .persistConfig])

/-- One element of the `ListContexts` response (source `ContextConfig`). -/
structure ContextConfig where
  name : String
  type : String
  host : String
  current : Bool
deriving DecidableEq, Repr

/-- Ordering used by the `sort.Slice` call of `ListContexts`: ascending
context name. -/
def ctxLe (a b : ContextConfig) : Prop := a.name ≤ b.name

instance : DecidableRel ctxLe := fun a b =>
  inferInstanceAs (Decidable (a.name ≤ b.name))

instance : IsTotal ContextConfig ctxLe := ⟨fun a b => le_total a.name b.name⟩

instance : IsTrans ContextConfig ctxLe := ⟨fun _ _ _ => le_trans⟩

/-- Build one response entry from a stored pair; the `Current` flag is
`name == currentCtx`. -/
def mkContextConfig (cur : String) (p : String × ContextEntry) :
    ContextConfig :=
  ⟨p.1, p.2.type, p.2.host, p.1 == cur⟩

/-- `DockerService.ListContexts`: split the stored entries into the one
matching `current-context` and the rest, sort the rest ascending by
name, and prepend the current entry when it exists. -/
def listContexts (cfg : Config) : List ContextConfig :=
  let cur := cfg.currentContext
  let nonCurrent :=
    (cfg.contexts.filter (fun p => !(p.1 == cur))).map (mkContextConfig cur)
  let sorted := List.insertionSort ctxLe nonCurrent
  match cfg.contexts.find? (fun p => p.1 == cur) with
  | some p => mkContextConfig cur p :: sorted
  | none => sorted

/-- Index of the first occurrence of `a` in `l`. -/
def firstIdx {α : Type} [BEq α] (l : List α) (a : α) : Option Nat :=
  l.findIdx? (· == a)

/-- True when both events occur in `l` and the first occurrence of `a`
strictly precedes the first occurrence of `b`. -/
def occursBefore {α : Type} [BEq α] (l : List α) (a b : α) : Bool :=
  match firstIdx l a, firstIdx l b with
  | some i, some j => decide (i < j)
  | _, _ => false

/-- Observable events of one `ContainerHandler.ExecContainer` run:
websocket upgrade, the exec lifecycle calls, the two pump-goroutine
launches, error reporting, the blocking wait, and the deferred closes. -/
inductive SessEvent
  | upgrade
  | createExec
  | attachExec
  | spawnOutboundPump
  | spawnInboundPump
  | startExec
  | reportError
  | waitCompletion
  | closeHijacked
  | closeWs
deriving DecidableEq, Repr

/-- The event trace of `ExecContainer` as a function of which lifecycle
calls succeed, transcribing the handler's statement order: upgrade,
CreateExec, AttachExec, spawn both pumps, StartExec, then wait; each
failure reports an error and returns, running the deferred closes in
LIFO order. -/
def execContainerEvents (createOk attachOk startOk : Bool) :
    List SessEvent :=
  [.upgrade, .createExec] ++
    (if createOk = false then [.reportError, .closeWs]
     else [.attachExec] ++
       (if attachOk = false then [.reportError, .closeWs]
        else [.spawnOutboundPump, .spawnInboundPump, .startExec] ++
          (if startOk = false then
             [.reportError, .closeHijacked, .closeWs]
           else [.waitCompletion, .closeHijacked, .closeWs])))

/-- The outbound pump goroutine.  Input: the sequence of results of
`hijackedResp.Read` as `(data, err)` pairs, each paired with whether the
`ws.WriteMessage` for that chunk (if attempted) succeeds.  Output: the
payloads of the binary frames written to the websocket, and the error
sent on `errChan` (none while the trace is exhausted with the loop still
running).  The source checks the read error first (returning without
writing), skips empty chunks, and stops on a failed write. -/
def outboundPump {α : Type} :
    List ((List α × Option String) × Bool) → List (List α) × Option String
  | [] => ([], none)
  | ((_, some e), _) :: _ => ([], some e)
  | ((data, none), wOk) :: rest =>
    if data.isEmpty then outboundPump rest
    else if wOk then
      (data :: (outboundPump rest).1, (outboundPump rest).2)
    else ([], some "write error")

/-- A decoded inbound control message (the anonymous struct the handler
unmarshals text frames into). -/
structure CtrlMsg where
  ty : String
  data : String
  cols : Int
  rows : Int
deriving DecidableEq, Repr

/-- One result of `ws.ReadMessage` as the inbound pump sees it: a read
error, a non-text frame, or a text frame together with the outcome of
`json.Unmarshal` (`none` = malformed) and — for the operation the
message triggers — whether that operation fails (`hijackedResp.Write`
for input, `ResizeExec` for resize). -/
inductive InFrame
  | readErr
  | nonText
  | text (parsed : Option CtrlMsg) (opFails : Bool)
deriving DecidableEq, Repr

/-- Calls the inbound pump makes against the remote process. -/
inductive RemoteAction
  | writeRemote (data : String)
  | resize (rows cols : Int)
deriving DecidableEq, Repr

/-- Why the inbound pump exited. -/
inductive PumpExit
  | readError
  | writeError
deriving DecidableEq, Repr

/-- The inbound pump goroutine: loop over `ws.ReadMessage` results.
Read errors exit; non-text frames are ignored; text frames that fail to
unmarshal are skipped with `continue`; `type=="input"` writes the data
to the remote stream and exits on write failure; `type=="resize"` calls
the resize operation once and continues regardless of its outcome; any
other type is ignored. -/
def inboundPump : List InFrame → List RemoteAction × Option PumpExit
  | [] => ([], none)
  | .readErr :: _ => ([], some .readError)
  | .nonText :: rest => inboundPump rest
  | .text none _ :: rest => inboundPump rest
  | .text (some m) opFails :: rest =>
    if m.ty = "input" then
      if opFails then ([.writeRemote m.data], some .writeError)
      else
        let (as, ex) := inboundPump rest
        (.writeRemote m.data :: as, ex)
    else if m.ty = "resize" then
      let (as, ex) := inboundPump rest
      (.resize m.rows m.cols :: as, ex)
    else inboundPump rest

/-- Program counter of one in-flight `getClient` call in the
interleaving model: `start` is about to run the cache check / store
read, `create h` is about to call `NewClientWithOpts` for host `h` and
store the result, `done r` has returned `r`. -/
inductive GetPC
  | start
  | create (host : String)
  | done (r : Except DockerErr Client)

/-- One atomic step of a `getClient` call.  The first step covers the
cache lookup and the store read (no shared write); the second covers
client creation and the `s.clients[contextName] = cli` map write. -/
def getStep (ok : String → Bool) (name : String) (pc : GetPC)
    (s : RegistryState) : GetPC × RegistryState :=
  match pc with
  | .start =>
    match List.lookup name s.clients with
    | some cli => (.done (.ok cli), s)
    | none =>
      match List.lookup name s.store.contexts with
      | none => (.done (.error (.notFound name)), s)
      | some entry =>
        if entry.host = "" then (.done (.error (.invalidHost name)), s)
        else (.create entry.host, s)
  | .create h =>
    if ok h then
      let cli : Client := ⟨h, s.nextId⟩
      (.done (.ok cli),
       { s with clients := assocSet s.clients name cli,
                nextId := s.nextId + 1 })
    else (.done (.error (.clientCreateFailed h)), s)
  | .done r => (.done r, s)

/-- Shared state of two concurrent `getClient` calls A and B for the
same context name. -/
structure RaceWorld where
  s : RegistryState
  a : GetPC
  b : GetPC

/-- Run an interleaving of the two calls: `true` schedules one step of
call A, `false` one step of call B. -/
def runSched (ok : String → Bool) (name : String) :
    List Bool → RaceWorld → RaceWorld
  | [], w => w
  | pick :: rest, w =>
    if pick then
      let (pc, s) := getStep ok name w.a w.s
      runSched ok name rest { w with a := pc, s := s }
    else
      let (pc, s) := getStep ok name w.b w.s
      runSched ok name rest { w with b := pc, s := s }

/-- Oracle under which every client creation succeeds. -/
def okAll : String → Bool := fun _ => true

/-- Example entry bound to host `tcp://10.0.0.5:2375`. -/
def entryA : ContextEntry := ⟨"tcp", "tcp://10.0.0.5:2375"⟩

/-- Example entry bound to host `tcp://10.0.0.7:2375`. -/
def entryB : ContextEntry := ⟨"tcp", "tcp://10.0.0.7:2375"⟩

/-- Example replacement entry bound to host `tcp://10.0.0.6:2375`. -/
def entryNew : ContextEntry := ⟨"tcp", "tcp://10.0.0.6:2375"⟩

/-- Example store: contexts `a` and `b`, with `b` current. -/
def exStore : Config := ⟨[("a", entryA), ("b", entryB)], "b"⟩

/-- Example registry state over `exStore` with an empty client cache. -/
def exState : RegistryState := ⟨[], exStore, "", 0⟩

/-- Example registry state whose only context `b` is current. -/
def exStateB : RegistryState := ⟨[], ⟨[("b", entryB)], "b"⟩, "", 5⟩

/-- Registry state with an empty store. -/
def sEmpty : RegistryState := ⟨[], ⟨[], ""⟩, "", 0⟩

/-- Initial world for two concurrent `getClient "prod"` calls racing on
a one-context store with no cached handle. -/
def raceStart : RaceWorld :=
  ⟨⟨[], ⟨[("prod", ⟨"tcp", "tcp://10.0.0.5:2375"⟩)], "prod"⟩, "", 0⟩,
   .start, .start⟩

/-- Deleting a key removes its binding from an association list. -/
theorem lookup_assocDel {α : Type} (l : List (String × α)) (k : String) :
    List.lookup k (assocDel l k) = none := by
  induction l with
  | nil => rfl
  | cons p rest ih =>
    by_cases h : p.1 = k
    · simpa [assocDel, h, List.filter] using ih
    · simp only [assocDel, List.filter] at ih ⊢
      have hb : (p.1 == k) = false := by
        simpa [beq_iff_eq] using h
      have hb₂ : (k == p.1) = false := by
        simp only [beq_eq_false_iff_ne]
        exact fun e => h e.symm
      simp [hb, List.lookup, hb₂, ih]

/-- Assigning a key makes lookup of that key return the new value. -/
theorem lookup_assocSet_self {α : Type} (l : List (String × α)) (k : String)
    (v : α) : List.lookup k (assocSet l k v) = some v := by
  induction l with
  | nil => simp [assocSet, List.lookup]
  | cons p rest ih =>
    by_cases h : p.1 = k
    · simp [assocSet, h, List.lookup]
    · have hb : (k == p.1) = false := by
        simp only [beq_eq_false_iff_ne]
        exact fun e => h e.symm
      simp [assocSet, h, List.lookup, hb, ih]

/-- Dropping the empty chunks of a list of chunks does not change their
concatenation. -/
theorem join_filter_nonempty {α : Type} (l : List (List α)) :
    (l.filter (fun c => !c.isEmpty)).flatten = l.flatten := by
  induction l with
  | nil => rfl
  | cons c rest ih =>
    by_cases h : c.isEmpty
    · have : c = [] := by cases c <;> simp_all [List.isEmpty]
      simp [this, List.filter, ih]
    · simp [List.filter, h, ih]

/-- C9: when `getClient` fails for any reason — context absent from the
store, empty host, or client creation failure — the error is returned
and the registry state (in particular the name-to-handle map) is left
exactly as it was, so a later call retries creation from the store. -/
theorem getClient_error_preserves_state (ok : String → Bool)
    (s : RegistryState) (name : String) :
    ∀ e s', getClient ok s name = (.error e, s') → s' = s := by
  intro e s' h
  unfold getClient at h
  split at h
  · simp_all
  · split at h
    · simp_all
    · split at h
      · simp_all
      · split at h
        · simp_all
        · simp_all

/-- Witness for C9 at the empty store: the failing call leaves the
state unchanged. -/
theorem getClient_error_preserves_state_witness :
    (getClient okAll sEmpty "x").2 = sEmpty :=
  getClient_error_preserves_state okAll sEmpty "x" (.notFound "x") _ rfl

/-- C5: deleting the current context always fails with the inUse error
and leaves the whole state — in particular the context store —
unchanged. -/
theorem deleteContext_current_inUse (s : RegistryState) (name : String)
    (h : s.store.currentContext = name) :
    deleteContext s name = (.error (.inUse name), s) := by
  unfold deleteContext
  rw [if_pos h]

/-- Witness for C5: deleting the current context `b` of the example
store fails with inUse and changes nothing. -/
theorem deleteContext_current_inUse_witness :
    deleteContext exState "b" = (.error (.inUse "b"), exState) :=
  deleteContext_current_inUse exState "b" rfl

/-- C6 (amended): deleting an existing, non-current context succeeds and
removes its descriptor from the store without touching the client
cache; a subsequent `getClient` for that name fails with notFound
provided no handle for it is still cached — `DeleteContext` does not
invalidate the handle cache. -/
theorem deleteContext_noncurrent_removes (s : RegistryState) (name : String)
    (entry : ContextEntry) (ok : String → Bool)
    (hmem : List.lookup name s.store.contexts = some entry)
    (hcur : s.store.currentContext ≠ name) :
    ∃ s', deleteContext s name = (.ok (), s') ∧
      List.lookup name s'.store.contexts = none ∧
      s'.clients = s.clients ∧
      (List.lookup name s'.clients = none →
        (getClient ok s' name).1 = .error (.notFound name)) := by
  refine ⟨{ s with store := { s.store with
              contexts := assocDel s.store.contexts name } },
          ?_, lookup_assocDel s.store.contexts name, rfl, ?_⟩
  · unfold deleteContext
    rw [if_neg hcur, hmem]
  · intro hnone
    simp only [getClient, hnone, lookup_assocDel]

/-- Counterexample for C6 as stated: on the example store, `get("a")`
caches a handle, `delete("a")` then succeeds, yet the subsequent
`get("a")` returns the cached handle instead of failing with notFound. -/
theorem deleteContext_cached_get_cex :
    (deleteContext (getClient okAll exState "a").2 "a").1 = .ok () ∧
    (getClient okAll
        (deleteContext (getClient okAll exState "a").2 "a").2 "a").1 =
      .ok ⟨"tcp://10.0.0.5:2375", 0⟩ := by
  exact ⟨rfl, rfl⟩

/-- Witness for C6 (amended) on the example store: delete of the
non-current `a` succeeds and, with nothing cached, the next get fails
with notFound. -/
theorem deleteContext_noncurrent_removes_witness :
    ∃ s', deleteContext exState "a" = (.ok (), s') ∧
      List.lookup "a" s'.store.contexts = none ∧
      s'.clients = exState.clients ∧
      (List.lookup "a" s'.clients = none →
        (getClient okAll s' "a").1 = .error (.notFound "a")) :=
  deleteContext_noncurrent_removes exState "a" entryA okAll rfl (by decide)

/-- C4: for the current context, a successful `UpdateContextConfig` to a
new host leaves a subsequent `getClient` returning a handle bound to
the new host — never a handle bound to any other address — and a
failure of the client reopening is returned to the caller while the
client cache and the store are left unchanged (no dead handle is
cached). -/
theorem updateContext_current_reopens (ok : String → Bool)
    (s : RegistryState) (name : String) (cfg : ContextEntry)
    (hcur : s.store.currentContext = name) :
    (∀ s' log, updateContextConfig ok s name cfg = (.ok (), s', log) →
      ∃ c, (getClient ok s' name).1 = .ok c ∧ c.host = cfg.host ∧
        ∀ old : Client, old.host ≠ cfg.host → c ≠ old) ∧
    (∀ e s' log, updateContextConfig ok s name cfg = (.error e, s', log) →
      s'.clients = s.clients ∧ s'.store = s.store) := by
  constructor
  · intro s' log h
    unfold updateContextConfig at h
    split at h
    · exact absurd h (by simp)
    · rw [if_pos hcur] at h
      by_cases hok : ok cfg.host
      · rw [if_pos hok] at h
        obtain h₂ := congrArg (fun x => x.2.1) h
        simp only at h₂
        refine ⟨⟨cfg.host, s.nextId⟩, ?_, rfl, ?_⟩
        · rw [← h₂]
          simp only [getClient, lookup_assocSet_self]
        · intro old hold he
          exact hold (congrArg Client.host he).symm
      · rw [if_neg hok] at h
        exact absurd h (by simp)
  · intro e s' log h
    unfold updateContextConfig at h
    split at h
    · obtain h₂ := congrArg (fun x => x.2.1) h
      simp only at h₂
      rw [← h₂]
      exact ⟨rfl, rfl⟩
    · rw [if_pos hcur] at h
      by_cases hok : ok cfg.host
      · rw [if_pos hok] at h
        exact absurd h (by simp)
      · rw [if_neg hok] at h
        obtain h₂ := congrArg (fun x => x.2.1) h
        simp only at h₂
        rw [← h₂]
        exact ⟨rfl, rfl⟩

/-- Witness for C4: updating the current context `b` of the example
state to the new host and then getting `b` yields a handle on the new
host. -/
theorem updateContext_current_reopens_witness :
    (∀ s' log,
        updateContextConfig okAll exStateB "b" entryNew = (.ok (), s', log) →
      ∃ c, (getClient okAll s' "b").1 = .ok c ∧ c.host = entryNew.host ∧
        ∀ old : Client, old.host ≠ entryNew.host → c ≠ old) ∧
    (∀ e s' log,
        updateContextConfig okAll exStateB "b" entryNew = (.error e, s', log) →
      s'.clients = exStateB.clients ∧ s'.store = exStateB.store) :=
  updateContext_current_reopens okAll exStateB "b" entryNew rfl

/-- C1: when the Remote Process Handle yields the chunks `chunks` in
order and then a read error (EOF included), and the websocket accepts
every write, the outbound pump emits exactly the non-empty chunks as
binary frames in the order read, the concatenation of the frame
payloads equals the concatenation of the bytes produced, every frame is
non-empty, and the read error is reported on the completion channel. -/
theorem outboundPump_preserves_stream {α : Type} (chunks : List (List α))
    (e : String) (rest : List ((List α × Option String) × Bool)) :
    outboundPump ((chunks.map fun c => ((c, none), true)) ++
        ((([], some e), true) :: rest)) =
      (chunks.filter (fun c => !c.isEmpty), some e) ∧
    (chunks.filter (fun c => !c.isEmpty)).flatten = chunks.flatten ∧
    ∀ f ∈ chunks.filter (fun c => !c.isEmpty), f ≠ [] := by
  refine ⟨?_, join_filter_nonempty chunks, ?_⟩
  · induction chunks with
    | nil => rfl
    | cons c cs ih =>
      by_cases h : c.isEmpty
      · simp [outboundPump, h, ih, List.filter_cons]
      · simp [outboundPump, h, ih, List.filter_cons]
  · intro f hf
    have := List.of_mem_filter hf
    simpa [List.isEmpty_iff] using this

/-- C7: the inbound pump silently drops a text frame that fails to
unmarshal, continuing the loop exactly as if the frame had not arrived,
and a resize control frame triggers exactly one remote resize call and
never terminates the session — the continuation is the same whether or
not the resize call fails. -/
theorem inboundPump_ctrl_tolerance :
    (∀ (b : Bool) rest, inboundPump (.text none b :: rest) = inboundPump rest) ∧
    (∀ (m : CtrlMsg) (b : Bool) rest, m.ty = "resize" →
      inboundPump (.text (some m) b :: rest) =
        (.resize m.rows m.cols :: (inboundPump rest).1,
         (inboundPump rest).2)) := by
  constructor
  · intro b rest
    rfl
  · intro m b rest h
    have hni : ¬m.ty = "input" := by rw [h]; decide
    simp [inboundPump, hni, h]

/-- Witness for C7: a resize frame whose resize call fails still
produces exactly one resize action, and a following malformed frame is
dropped, leaving the pump running. -/
theorem inboundPump_ctrl_tolerance_witness :
    inboundPump [.text (some ⟨"resize", "", 80, 24⟩) true, .text none false] =
      ([.resize 24 80], none) := by
  rw [inboundPump_ctrl_tolerance.2 ⟨"resize", "", 80, 24⟩ true
        [.text none false] rfl,
      inboundPump_ctrl_tolerance.1 false []]
  rfl

/-- Counterexample for C2: in the plain success run of `ExecContainer`,
the outbound pump is spawned strictly before the start-execution call —
`StartExec` does not precede the pump launches, so byte relay can begin
before the start call is issued; and even in the run where `StartExec`
fails the pumps have already been spawned, so relay may occur. -/
theorem execContainer_start_order_cex :
    occursBefore (execContainerEvents true true true)
      .startExec .spawnOutboundPump = false ∧
    occursBefore (execContainerEvents true true true)
      .spawnOutboundPump .startExec = true ∧
    occursBefore (execContainerEvents true true true)
      .spawnInboundPump .startExec = true ∧
    occursBefore (execContainerEvents true true false)
      .spawnOutboundPump .startExec = true := by
  decide

/-- C2 (amended): `ExecContainer` spawns both relay pumps before
issuing the start-execution call; when the start call fails, an error is
reported on the operator connection and then both resources are closed
(remote stream first, websocket last), terminating the session. -/
theorem execContainer_spawn_before_start :
    ∀ st : Bool,
      occursBefore (execContainerEvents true true st)
        .spawnOutboundPump .startExec = true ∧
      occursBefore (execContainerEvents true true st)
        .spawnInboundPump .startExec = true ∧
      (st = false →
        occursBefore (execContainerEvents true true false)
          .startExec .reportError = true ∧
        occursBefore (execContainerEvents true true false)
          .reportError .closeHijacked = true ∧
        occursBefore (execContainerEvents true true false)
          .closeHijacked .closeWs = true) := by
  decide

/-- Witness for C2 (amended) at the failing-start run. -/
theorem execContainer_spawn_before_start_witness :
    occursBefore (execContainerEvents true true false)
        .spawnOutboundPump .startExec = true ∧
    occursBefore (execContainerEvents true true false)
        .startExec .reportError = true ∧
    occursBefore (execContainerEvents true true false)
        .reportError .closeHijacked = true :=
  ⟨(execContainer_spawn_before_start false).1,
   ((execContainer_spawn_before_start false).2.2 rfl).1,
   ((execContainer_spawn_before_start false).2.2 rfl).2.1⟩

/-- Counterexample for C8: in a successful `UpdateContextConfig` of the
current context, persistence of the descriptor does not precede the
client creation — the client is created (and cached) first and
`saveConfig` runs last. -/
theorem updateContext_persist_order_cex :
    occursBefore (updateContextConfig okAll exStateB "b" entryNew).2.2
      UpdEvent.persistConfig (UpdEvent.createClient "tcp://10.0.0.6:2375") =
      false ∧
    occursBefore (updateContextConfig okAll exStateB "b" entryNew).2.2
      (UpdEvent.createClient "tcp://10.0.0.6:2375") UpdEvent.persistConfig =
      true ∧
    occursBefore (updateContextConfig okAll exStateB "b" entryNew).2.2
      (UpdEvent.cacheClient "b") UpdEvent.persistConfig = true := by
  decide

/-- C8 (amended): in every successful update of the current context,
descriptor persistence is preceded by the creation and the caching of
the new client handle — the handle is built from the not-yet-persisted
descriptor and `saveConfig` runs afterwards. -/
theorem updateContext_create_before_persist (ok : String → Bool)
    (s : RegistryState) (name : String) (cfg : ContextEntry)
    (hcur : s.store.currentContext = name) :
    ∀ s' log, updateContextConfig ok s name cfg = (.ok (), s', log) →
      ∀ j, log.get? j = some .persistConfig →
        ∃ i k, i < j ∧ k < j ∧
          log.get? i = some (.createClient cfg.host) ∧
          log.get? k = some (.cacheClient name) := by
  intro s' log h j hj
  unfold updateContextConfig at h
  split at h
  · exact absurd h (by simp)
  · rw [if_pos hcur] at h
    by_cases hok : ok cfg.host
    · rw [if_pos hok] at h
      obtain hlog := congrArg (fun x => x.2.2) h
      simp only at hlog
      rw [← hlog] at hj ⊢
      have hj5 : j < 5 := by
        by_contra hge
        rw [List.get?_eq_none.mpr (by simpa using Nat.le_of_not_lt hge)] at hj
        exact absurd hj (by simp)
      interval_cases j
      · simp at hj
      · simp at hj
      · simp at hj
      · simp at hj
      · exact ⟨2, 3, by omega, by omega, rfl, rfl⟩
    · rw [if_neg hok] at h
      exact absurd h (by simp)

/-- Witness for C8 (amended): on the example state, the persist event
of the successful update (at index 4) is preceded by the client
creation and caching events. -/
theorem updateContext_create_before_persist_witness :
    ∃ i k, i < 4 ∧ k < 4 ∧
      (updateContextConfig okAll exStateB "b" entryNew).2.2.get? i =
        some (.createClient "tcp://10.0.0.6:2375") ∧
      (updateContextConfig okAll exStateB "b" entryNew).2.2.get? k =
        some (.cacheClient "b") :=
  updateContext_create_before_persist okAll exStateB "b" entryNew rfl
    (updateContextConfig okAll exStateB "b" entryNew).2.1
    (updateContextConfig okAll exStateB "b" entryNew).2.2 rfl 4 rfl

/-- Counterexample for C3: interleaving two concurrent `getClient`
calls for the unseen name `prod` so that both pass the cache check
before either stores its client opens two backend connections
(`nextId` rises from 0 to 2) and hands the callers two distinct
handles — `getClient` does not serialize creation per key. -/
theorem getClient_race_two_creations_cex :
    (runSched okAll "prod" [true, false, true, false] raceStart).s.nextId
      = 2 ∧
    (runSched okAll "prod" [true, false, true, false] raceStart).a =
      .done (.ok ⟨"tcp://10.0.0.5:2375", 0⟩) ∧
    (runSched okAll "prod" [true, false, true, false] raceStart).b =
      .done (.ok ⟨"tcp://10.0.0.5:2375", 1⟩) ∧
    (⟨"tcp://10.0.0.5:2375", 0⟩ : Client) ≠ ⟨"tcp://10.0.0.5:2375", 1⟩ := by
  refine ⟨rfl, rfl, rfl, by decide⟩

/-- C3 (amended): when the calls are not interleaved, creation happens
once: a first `getClient` on an unseen name with a valid reachable host
opens exactly one backend connection, and a second call issued after it
completes returns the very same handle without opening another
connection or changing the registry. -/
theorem getClient_sequential_single_creation (ok : String → Bool)
    (s : RegistryState) (name : String) (entry : ContextEntry)
    (hnone : List.lookup name s.clients = none)
    (hmem : List.lookup name s.store.contexts = some entry)
    (hhost : ¬entry.host = "") (hok : ok entry.host = true) :
    ∃ c s₁, getClient ok s name = (.ok c, s₁) ∧
      s₁.nextId = s.nextId + 1 ∧
      getClient ok s₁ name = (.ok c, s₁) := by
  refine ⟨⟨entry.host, s.nextId⟩,
    { s with clients := assocSet s.clients name ⟨entry.host, s.nextId⟩,
             nextId := s.nextId + 1 }, ?_, rfl, ?_⟩
  · simp only [getClient, hnone, hmem]
    rw [if_neg hhost, hok]
    rfl
  · unfold getClient
    rw [show List.lookup name
          (assocSet s.clients name ⟨entry.host, s.nextId⟩) =
        some ⟨entry.host, s.nextId⟩ from lookup_assocSet_self ..]

/-- Witness for C3 (amended): on the example state the two sequential
calls for `a` agree on one handle and one opened connection. -/
theorem getClient_sequential_single_creation_witness :
    ∃ c s₁, getClient okAll exState "a" = (.ok c, s₁) ∧
      s₁.nextId = exState.nextId + 1 ∧
      getClient okAll s₁ "a" = (.ok c, s₁) :=
  getClient_sequential_single_creation okAll exState "a" entryA rfl rfl
    (by decide) rfl

/-- When no stored pair matches the current name, the matching filter is
empty. -/
theorem filter_cur_eq_nil_of_find?_none
    {l : List (String × ContextEntry)} {cur : String}
    (h : l.find? (fun q => q.1 == cur) = none) :
    l.filter (fun q => q.1 == cur) = [] := by
  rw [List.filter_eq_nil_iff]
  intro a ha
  have := List.find?_eq_none.mp h a ha
  simpa using this

/-- Under unique keys, the pair found for the current name is the only
pair the matching filter keeps. -/
theorem filter_cur_eq_of_find?_some
    {l : List (String × ContextEntry)} {cur : String}
    {p : String × ContextEntry}
    (hN : (l.map Prod.fst).Nodup)
    (h : l.find? (fun q => q.1 == cur) = some p) :
    l.filter (fun q => q.1 == cur) = [p] := by
  induction l with
  | nil => exact absurd h (by simp)
  | cons q rest ih =>
    rw [List.map_cons, List.nodup_cons] at hN
    by_cases hq : (q.1 == cur) = true
    · rw [List.find?_cons_of_pos (p := fun r => r.1 == cur) rest hq] at h
      obtain rfl : q = p := by simpa using h
      rw [List.filter_cons_of_pos (p := fun r : String × ContextEntry => r.1 == cur) hq]
      have hrest : rest.filter (fun q => q.1 == cur) = [] := by
        rw [List.filter_eq_nil_iff]
        intro a ha hacur
        apply hN.1
        have ha₁ : a.1 = cur := by simpa using hacur
        have hq₁ : q.1 = cur := by simpa using hq
        rw [hq₁, ← ha₁]
        exact List.mem_map_of_mem Prod.fst ha
      rw [hrest]
    · rw [List.find?_cons_of_neg (p := fun r => r.1 == cur) rest hq] at h
      rw [List.filter_cons_of_neg (p := fun r : String × ContextEntry => r.1 == cur) hq]
      exact ih hN.2 h

/-- Under unique keys, `listContexts` is the (at most one) current entry
followed by the insertion sort of the non-current entries. -/
theorem listContexts_eq (cfg : Config)
    (hN : (cfg.contexts.map Prod.fst).Nodup) :
    listContexts cfg =
      (cfg.contexts.filter (fun p => p.1 == cfg.currentContext)).map
        (mkContextConfig cfg.currentContext) ++
      List.insertionSort ctxLe
        ((cfg.contexts.filter (fun p => !(p.1 == cfg.currentContext))).map
          (mkContextConfig cfg.currentContext)) := by
  simp only [listContexts]
  cases hfind : cfg.contexts.find? (fun p => p.1 == cfg.currentContext) with
  | none =>
    rw [filter_cur_eq_nil_of_find?_none hfind]
    simp
  | some p =>
    rw [filter_cur_eq_of_find?_some hN hfind]
    simp

/-- Every response entry has its flag true exactly on the current name. -/
theorem mkContextConfig_flag (cur : String) (p : String × ContextEntry) :
    ((mkContextConfig cur p).current = true ↔
      (mkContextConfig cur p).name = cur) := by
  simp [mkContextConfig]

/-- C10: under unique stored names, `ListContexts` returns the current
context (when one is stored) as the head, followed by a tail that is a
permutation of the non-current entries sorted ascending by name, and
each entry's flag is true exactly when its name equals the stored
current-context value. -/
theorem listContexts_spec (cfg : Config)
    (hN : (cfg.contexts.map Prod.fst).Nodup) :
    (∀ c ∈ listContexts cfg, c.current = true ↔ c.name = cfg.currentContext) ∧
    ∃ tail, listContexts cfg =
        (cfg.contexts.filter (fun p => p.1 == cfg.currentContext)).map
          (mkContextConfig cfg.currentContext) ++ tail ∧
      tail.Perm
        ((cfg.contexts.filter (fun p => !(p.1 == cfg.currentContext))).map
          (mkContextConfig cfg.currentContext)) ∧
      tail.Pairwise ctxLe := by
  constructor
  · intro c hc
    rw [listContexts_eq cfg hN] at hc
    rcases List.mem_append.mp hc with h | h
    · obtain ⟨p, -, rfl⟩ := List.mem_map.mp h
      exact mkContextConfig_flag cfg.currentContext p
    · have h' := (List.perm_insertionSort ctxLe _).mem_iff.mp h
      obtain ⟨p, -, rfl⟩ := List.mem_map.mp h'
      exact mkContextConfig_flag cfg.currentContext p
  · refine ⟨_, listContexts_eq cfg hN, List.perm_insertionSort ctxLe _, ?_⟩
    exact List.sorted_insertionSort ctxLe _

/-- Witness for C10 on the example store (current context `b`, one
other context `a`). -/
theorem listContexts_spec_witness :
    (∀ c ∈ listContexts exStore,
      c.current = true ↔ c.name = exStore.currentContext) ∧
    ∃ tail, listContexts exStore =
        (exStore.contexts.filter
          (fun p => p.1 == exStore.currentContext)).map
          (mkContextConfig exStore.currentContext) ++ tail ∧
      tail.Perm
        ((exStore.contexts.filter
          (fun p => !(p.1 == exStore.currentContext))).map
          (mkContextConfig exStore.currentContext)) ∧
      tail.Pairwise ctxLe :=
  listContexts_spec exStore (by decide)

/-- Witness for C1: the chunk sequence `[0,1]`, `[]`, `[2]` followed by
EOF is forwarded as the two non-empty binary frames `[0,1]`, `[2]` whose
payloads concatenate to the produced bytes `[0,1,2]`. -/
theorem outboundPump_preserves_stream_witness :
    outboundPump
        ((([[0, 1], [], [2]] : List (List Nat)).map
          fun c => ((c, none), true)) ++
          ((([], some "EOF"), true) ::
            ([] : List ((List Nat × Option String) × Bool)))) =
      (([[0, 1], [], [2]] : List (List Nat)).filter (fun c => !c.isEmpty),
        some "EOF") ∧
    (([[0, 1], [], [2]] : List (List Nat)).filter
        (fun c => !c.isEmpty)).flatten =
      ([[0, 1], [], [2]] : List (List Nat)).flatten ∧
    ∀ f ∈ ([[0, 1], [], [2]] : List (List Nat)).filter
        (fun c => !c.isEmpty), f ≠ [] :=
  outboundPump_preserves_stream [[0, 1], [], [2]] "EOF" []
